import Mathlib

/-!
Shallow embedding of the visual-inspection notebook
(`Nova_Pro_Visual_Inspection.ipynb`): the image loader, the Bedrock request
builder, the inference client, the response parser and the report renderer,
together with models of the library primitives they call (base64, JSON
decoding, PIL thumbnail resizing).  Python exceptions are modelled with an
`Except` monad; machine floats are modelled by exact rationals.
-/

namespace NovaInspection

/-! ## Python exceptions -/

/-- Exception classes that the notebook code can raise or catch. -/
inductive PyErr where
  | keyError
  | indexError
  | typeError
  | attributeError
  | valueError
  | jsonDecodeError
  | ioError
  deriving DecidableEq, Repr

/-- Lift an optional value into the exception monad, raising `e` on `none`. -/
def ofOption (e : PyErr) : Option α → Except PyErr α
  | some a => .ok a
  | none => .error e

/-! ## String helpers (models of Python `str` operations) -/

/-- Model of testing that `needle` is a prefix of `hay` (character lists). -/
def pref_of : List Char → List Char → Bool
  | [], _ => true
  | _ :: _, [] => false
  | c :: cs, d :: ds => c = d && pref_of cs ds

/-- Model of Python substring containment `needle in hay` on character lists. -/
def sub_of (needle : List Char) : List Char → Bool
  | [] => pref_of needle []
  | d :: ds => pref_of needle (d :: ds) || sub_of needle ds

/-- Model of the Python expression `needle in hay` for strings. -/
def str_contains (hay needle : String) : Bool :=
  sub_of needle.toList hay.toList

/-- Whitespace characters recognised by the model of `str.strip`. -/
def is_ws (c : Char) : Bool :=
  c = ' ' || c = '\n' || c = '\t' || c = '\r'

/-- Drop leading whitespace from a character list. -/
def drop_ws : List Char → List Char
  | [] => []
  | c :: cs => if is_ws c then drop_ws cs else c :: cs

/-- Model of Python `str.strip()`: remove whitespace from both ends. -/
def py_strip (s : String) : String :=
  ⟨(drop_ws (drop_ws s.toList.reverse).reverse)⟩

/-- Fueled worker for `py_replace`; replaces non-overlapping occurrences
left to right, as Python `str.replace` does. -/
def replace_from (needle repl : List Char) : ℕ → List Char → List Char
  | _, [] => []
  | 0, hay => hay
  | fuel + 1, c :: cs =>
    if pref_of needle (c :: cs) then
      repl ++ replace_from needle repl fuel (List.drop (needle.length - 1) cs)
    else
      c :: replace_from needle repl fuel cs

/-- Model of Python `str.replace(needle, repl)` for a non-empty `needle`. -/
def py_replace (s needle repl : String) : String :=
  ⟨replace_from needle.toList repl.toList s.toList.length s.toList⟩

/-! ## Base64 (model of `base64.b64encode` / `base64.b64decode`) -/

/-- The base64 alphabet. -/
def b64_alphabet : List Char :=
  ("ABCDEFGHIJKLMNOPQRSTUVWXYZabcdefghijklmnopqrstuvwxyz0123456789+/").toList

/-- The base64 digit for a 6-bit value. -/
def b64_char (n : ℕ) : Char := b64_alphabet.getD n '='

/-- Position of a character in a list, searching from index `i`. -/
def find_pos (c : Char) : List Char → ℕ → Option ℕ
  | [], _ => none
  | d :: ds, i => if c = d then some i else find_pos c ds (i + 1)

/-- Index of a base64 digit in the alphabet. -/
def b64_index (c : Char) : Option ℕ :=
  find_pos c b64_alphabet 0

/-- Model of `base64.b64encode` on a byte list (each entry `< 256`),
producing the base64 character stream with `=` padding. -/
def base64_encode : List ℕ → List Char
  | [] => []
  | [a] => [b64_char (a / 4), b64_char (a % 4 * 16), '=', '=']
  | [a, b] => [b64_char (a / 4), b64_char (a % 4 * 16 + b / 16), b64_char (b % 16 * 4), '=']
  | a :: b :: c :: rest =>
    b64_char (a / 4) :: b64_char (a % 4 * 16 + b / 16) ::
      b64_char (b % 16 * 4 + c / 64) :: b64_char (c % 64) :: base64_encode rest

/-- Model of `base64.b64decode`: invert `base64_encode`, failing on
characters outside the alphabet or on a malformed group structure. -/
def base64_decode : List Char → Option (List ℕ)
  | [] => some []
  | [a, b, '=', '='] => do
    let x ← b64_index a
    let y ← b64_index b
    pure [x * 4 + y / 16]
  | [a, b, c, '='] => do
    let x ← b64_index a
    let y ← b64_index b
    let z ← b64_index c
    pure [x * 4 + y / 16, y % 16 * 16 + z / 4]
  | a :: b :: c :: d :: rest => do
    let x ← b64_index a
    let y ← b64_index b
    let z ← b64_index c
    let w ← b64_index d
    let tail ← base64_decode rest
    pure ((x * 4 + y / 16) :: (y % 16 * 16 + z / 4) :: (z % 4 * 64 + w) :: tail)
  | _ => none

/-! ## Images and the loader (model of PIL plus `get_png_base64_from_file`) -/

/-- In-memory image, abstracted to its pixel dimensions; pixel content plays
no role in any property of the notebook under study. -/
structure Img where
  width : ℕ
  height : ℕ
  deriving DecidableEq, Repr

/-- Model of the PNG byte stream produced by `img.save(output, format="PNG")`:
a lossless carrier of the image, abstracted to its dimension header. -/
def png_bytes (i : Img) : List ℕ := [i.width, i.height]

/-- Model of `Image.open` on an in-memory PNG byte stream: recover the
dimensions carried by `png_bytes`. -/
def png_decode_dims : List ℕ → Option Img
  | [w, h] => some ⟨w, h⟩
  | _ => none

/-- Model of the rounding helper `round_aspect` inside PIL
`Image.thumbnail`: pick whichever of floor and ceiling minimises `key`
(floor winning ties, as Python `min` keeps the first argument), then clamp
below by 1. -/
def round_aspect (number : ℚ) (key : ℤ → ℚ) : ℤ :=
  max (if key ⌊number⌋ ≤ key ⌈number⌉ then ⌊number⌋ else ⌈number⌉) 1

/-- Model of PIL `Image.thumbnail((mw, mh))` restricted to the dimensions it
produces: no change when the image already fits, otherwise shrink the
dominant dimension to the bound and round the other to preserve the aspect. -/
def thumbnail_dims (w h mw mh : ℕ) : ℕ × ℕ :=
  if w ≤ mw ∧ h ≤ mh then (w, h)
  else if (w : ℚ) / (h : ℚ) ≤ (mw : ℚ) / (mh : ℚ) then
    ((round_aspect ((mh : ℚ) * ((w : ℚ) / (h : ℚ)))
      (fun n => |(w : ℚ) / (h : ℚ) - (n : ℚ) / (mh : ℚ)|)).toNat, mh)
  else
    (mw, (round_aspect ((mw : ℚ) / ((w : ℚ) / (h : ℚ)))
      (fun n => if n = 0 then 0 else |(w : ℚ) / (h : ℚ) - (mw : ℚ) / (n : ℚ)|)).toNat)

/-- Apply `thumbnail_dims` to an image. -/
def thumbnail_img (i : Img) (mw mh : ℕ) : Img :=
  let wh := thumbnail_dims i.width i.height mw mh
  ⟨wh.1, wh.2⟩

/-- Embedding of `get_png_base64_from_file`: open the file (the file system
is an oracle from paths to decoded images), shrink it in place with
`thumbnail`, re-encode as PNG, and return the base64 string, the raw PNG
bytes and the resized image.  A file that cannot be opened or decoded raises. -/
def get_png_base64_from_file (fs : String → Option Img) (filepath : String)
    (mw mh : ℕ) :
    Except PyErr (List Char × List ℕ × Img) := do
  let img ← ofOption .ioError (fs filepath)
  let img := thumbnail_img img mw mh
  let pngBytes := png_bytes img
  let base64Str := base64_encode pngBytes
  pure (base64Str, pngBytes, img)

/-! ## JSON values (model of Python dict/list/str/num trees) -/

/-- JSON values as produced by the model of `json.loads`. -/
inductive Json where
  | null
  | bool (b : Bool)
  | num (q : ℚ)
  | str (s : String)
  | arr (items : List Json)
  | obj (entries : List (String × Json))

/-- Model of Python truthiness for the values a decoded JSON tree can hold:
`None`, `False`, zero, and empty strings, lists and dicts are falsy. -/
def py_falsy : Json → Bool
  | .null => true
  | .bool b => !b
  | .num q => q == 0
  | .str s => s.isEmpty
  | .arr items => items.isEmpty
  | .obj entries => entries.isEmpty

/-- First binding of a key in a decoded JSON object. -/
def lookup_field (entries : List (String × Json)) (k : String) : Option Json :=
  match entries with
  | [] => none
  | (k', v) :: rest => if k' = k then some v else lookup_field rest k

/-- Model of the Python subscript `j[k]`: `KeyError` when the key is absent,
`TypeError` when `j` is not a dict. -/
def get_item (j : Json) (k : String) : Except PyErr Json :=
  match j with
  | .obj entries =>
    match lookup_field entries k with
    | some v => .ok v
    | none => .error .keyError
  | _ => .error .typeError

/-- Model of the Python method call `j.get(k)`: `None` when the key is
absent, `AttributeError` when `j` is not a dict (dicts alone have `get`). -/
def get_method (j : Json) (k : String) : Except PyErr (Option Json) :=
  match j with
  | .obj entries => .ok (lookup_field entries k)
  | _ => .error .attributeError

/-- Model of the Python subscript `j[i]` on a list: `IndexError` when out of
range, `TypeError` when `j` is not a list. -/
def get_index (j : Json) (i : ℕ) : Except PyErr Json :=
  match j with
  | .arr items =>
    match items.get? i with
    | some v => .ok v
    | none => .error .indexError
  | _ => .error .typeError

/-- Model of Python `str(...)` on decoded JSON leaves as used in the
notebook f-strings; containers are abbreviated (never exercised). -/
def py_to_string : Json → String
  | .str s => s
  | .num q => toString q
  | .bool true => "True"
  | .bool false => "False"
  | .null => "None"
  | .arr _ => "[...]"
  | .obj _ => "\x7b...\x7d"

/-! ## JSON decoding (model of `json.loads`) -/

/-- Translate a JSON string escape character to the character it denotes. -/
def unescape_char (c : Char) : Char :=
  if c = 'n' then '\n'
  else if c = 't' then '\t'
  else if c = 'r' then '\r'
  else if c = 'b' then '\x08'
  else if c = 'f' then '\x0c'
  else c

/-- Parse the body of a JSON string after the opening quote, up to the
closing quote; fueled by the input length. -/
def parse_string_body : ℕ → List Char → Option (List Char × List Char)
  | 0, _ => none
  | _ + 1, [] => none
  | fuel + 1, c :: rest =>
    if c = '"' then some ([], rest)
    else if c = '\\' then
      match rest with
      | [] => none
      | e :: rest' =>
        match parse_string_body fuel rest' with
        | none => none
        | some (s, r) => some (unescape_char e :: s, r)
    else
      match parse_string_body fuel rest with
      | none => none
      | some (s, r) => some (c :: s, r)

/-- Decimal digit test. -/
def is_digit (c : Char) : Bool := '0' ≤ c && c ≤ '9'

/-- Numeric value of a decimal digit. -/
def digit_val (c : Char) : ℕ := c.toNat - '0'.toNat

/-- Split a character list into its leading digits and the remainder. -/
def take_digits : List Char → List ℕ × List Char
  | [] => ([], [])
  | c :: cs =>
    if is_digit c then
      match take_digits cs with
      | (ds, r) => (digit_val c :: ds, r)
    else ([], c :: cs)

/-- Value of a big-endian digit list, folded onto an accumulator. -/
def digits_to_nat (acc : ℕ) : List ℕ → ℕ
  | [] => acc
  | d :: ds => digits_to_nat (acc * 10 + d) ds

/-- Parse a JSON number (sign, integer part, optional fraction, optional
exponent) as an exact rational. -/
def parse_number (cs : List Char) : Option (ℚ × List Char) :=
  let signAndRest : Bool × List Char :=
    match cs with
    | '-' :: t => (true, t)
    | _ => (false, cs)
  match take_digits signAndRest.2 with
  | ([], _) => none
  | (ip, cs2) =>
    let intPart : ℚ := (digits_to_nat 0 ip : ℕ)
    let fracStep : Option (ℚ × List Char) :=
      match cs2 with
      | '.' :: t =>
        match take_digits t with
        | ([], _) => none
        | (fp, r) => some (((digits_to_nat 0 fp : ℕ) : ℚ) / (10 : ℚ) ^ fp.length, r)
      | _ => some (0, cs2)
    match fracStep with
    | none => none
    | some (fracPart, cs3) =>
      let expStep : Option (ℚ × List Char) :=
        match cs3 with
        | 'e' :: t | 'E' :: t =>
          let expSignAndRest : Bool × List Char :=
            match t with
            | '-' :: u => (true, u)
            | '+' :: u => (false, u)
            | _ => (false, t)
          match take_digits expSignAndRest.2 with
          | ([], _) => none
          | (ep, r) =>
            let e : ℚ := (10 : ℚ) ^ (digits_to_nat 0 ep)
            some (if expSignAndRest.1 then 1 / e else e, r)
        | _ => some (1, cs3)
      match expStep with
      | none => none
      | some (expFactor, cs4) =>
        let magnitude := (intPart + fracPart) * expFactor
        some (if signAndRest.1 then -magnitude else magnitude, cs4)

/-- Which grammatical production a `parse_step` call works on. -/
inductive ParseKind where
  | value
  | objFields
  | arrItems

/-- Result payload of a `parse_step` call. -/
inductive ParseOut where
  | value (j : Json)
  | objFields (fields : List (String × Json))
  | arrItems (items : List Json)

/-- Recursive descent over the JSON grammar, fueled so that the recursion is
structural (one function covers values, the field list of an object after a
non-empty opening, and the item list of an array). -/
def parse_step : ℕ → ParseKind → List Char → Option (ParseOut × List Char)
  | 0, _, _ => none
  | fuel + 1, .value, cs =>
    (match drop_ws cs with
    | [] => none
    | c :: rest =>
      if c = '\x7b' then
        match drop_ws rest with
        | '\x7d' :: r => some (.value (.obj []), r)
        | other =>
          match parse_step fuel .objFields other with
          | some (.objFields fields, r) => some (.value (.obj fields), r)
          | _ => none
      else if c = '[' then
        match drop_ws rest with
        | ']' :: r => some (.value (.arr []), r)
        | other =>
          match parse_step fuel .arrItems other with
          | some (.arrItems items, r) => some (.value (.arr items), r)
          | _ => none
      else if c = '"' then
        match parse_string_body rest.length rest with
        | some (s, r) => some (.value (.str ⟨s⟩), r)
        | none => none
      else if c = 't' then
        match rest with
        | 'r' :: 'u' :: 'e' :: r => some (.value (.bool true), r)
        | _ => none
      else if c = 'f' then
        match rest with
        | 'a' :: 'l' :: 's' :: 'e' :: r => some (.value (.bool false), r)
        | _ => none
      else if c = 'n' then
        match rest with
        | 'u' :: 'l' :: 'l' :: r => some (.value .null, r)
        | _ => none
      else
        match parse_number (c :: rest) with
        | some (q, r) => some (.value (.num q), r)
        | none => none)
  | fuel + 1, .objFields, cs =>
    (match drop_ws cs with
    | '"' :: rest =>
      match parse_string_body rest.length rest with
      | none => none
      | some (k, r1) =>
        match drop_ws r1 with
        | ':' :: r2 =>
          match parse_step fuel .value r2 with
          | some (.value v, r3) =>
            (match drop_ws r3 with
            | ',' :: r4 =>
              match parse_step fuel .objFields r4 with
              | some (.objFields fields, r5) => some (.objFields ((⟨k⟩, v) :: fields), r5)
              | _ => none
            | '\x7d' :: r4 => some (.objFields [(⟨k⟩, v)], r4)
            | _ => none)
          | _ => none
        | _ => none
    | _ => none)
  | fuel + 1, .arrItems, cs =>
    (match parse_step fuel .value cs with
    | some (.value v, r1) =>
      (match drop_ws r1 with
      | ',' :: r2 =>
        match parse_step fuel .arrItems r2 with
        | some (.arrItems items, r3) => some (.arrItems (v :: items), r3)
        | _ => none
      | ']' :: r2 => some (.arrItems [v], r2)
      | _ => none)
    | _ => none)

/-- Model of `json.loads`: decode a whole string as one JSON value, with
only trailing whitespace allowed; `none` models `json.JSONDecodeError`. -/
def json_loads (s : String) : Option Json :=
  match parse_step (s.toList.length + 1) .value s.toList with
  | some (.value j, rest) => if (drop_ws rest).isEmpty then some j else none
  | _ => none

/-! ## Model identifier and prompts (notebook constants) -/

/-- The `MODEL_ID` constant. -/
def MODEL_ID : String := "amazon.nova-pro-v1:0"

/-- The `default_system_prompt` constant (after `textwrap.dedent`). -/
def default_system_prompt : String :=
  "Compare the current image with the reference image \n" ++
  "and highlight any visual differences. Mark as NOK if differences exist; otherwise, mark as OK. \n" ++
  "Be very strict with the differences, give me all the differences. Check for any missing or visual differences.\n" ++
  "Scratches and dents are also important. Search for any aestethical problem, any barcode missing, if the objects have some \n" ++
  "missing labels, or anything aestethically different, blurry text or logos. Any material differences, scratches on surface,\n" ++
  "color difference between reference and QC objects\n"

/-- The `instruction` constant (after `textwrap.dedent`). -/
def instruction : String :=
  "Provide me the JSON with the written description in \x27text\x27 and the list of objects in \x27objects\x27.\n" ++
  "This list must include: name, color, qc, reason, bounding_box of the defect (x_min, y_min, x_max, y_max).\n" ++
  "Clean JSON only — no markdown, no extra characters.\n" ++
  "If you describe a defect, include its bounding box.\n" ++
  "Do not group bounding boxes or include any from the reference image. Be strict on the JSON based on the example,\n" ++
  "keep the same names for the objects because I am parsing those later. Make bounding boxes for all defects.\n" ++
  "Example JSON:\n" ++
  "\x7b\n" ++
  "    \"text\": \"The object is a blue and green sponge. The green part has white spots...\",\n" ++
  "    \"objects\": [\n" ++
  "        \x7b\n" ++
  "            \"name\": \"defect_1\",\n" ++
  "            \"color\": \"green\",\n" ++
  "            \"qc\": \"NOK\",\n" ++
  "            \"reason\": \"white spots\",\n" ++
  "            \"bounding_box\": \x7b\n" ++
  "                \"x_min\": 195, \"y_min\": 475, \"x_max\": 285, \"y_max\": 595\n" ++
  "            \x7d\n" ++
  "        \x7d,\n" ++
  "        \x7b\n" ++
  "            \"name\": \"defect_2\",\n" ++
  "            \"color\": \"blue\",\n" ++
  "            \"qc\": \"NOK\",\n" ++
  "            \"reason\": \"white spot and small hole\",\n" ++
  "            \"bounding_box\": \x7b\n" ++
  "                \"x_min\": 690, \"y_min\": 420, \"x_max\": 760, \"y_max\": 500\n" ++
  "            \x7d\n" ++
  "        \x7d\n" ++
  "    ]\n" ++
  "\x7d\n"

/-! ## Request builder (`build_qc_request`) -/

/-- One content part of a Bedrock message: either text or an inlined
base64-encoded PNG image. -/
inductive ContentPart where
  | text (s : String)
  | image (format : String) (sourceBytes : List Char)

/-- One message of the request: a role and its content parts. -/
structure Message where
  role : String
  content : List ContentPart

/-- The fixed inference parameters of the request. -/
structure InferenceConfig where
  max_new_tokens : ℕ
  top_p : ℚ
  top_k : ℕ
  temperature : ℚ

/-- The structured Bedrock request object. -/
structure QcRequest where
  schemaVersion : String
  messages : List Message
  system : List String
  inferenceConfig : InferenceConfig

/-- Embedding of `build_qc_request`: the system prompt, a user message with
the base64-encoded subject image and the instruction, optionally a second
user message with the disclaimer and the base64-encoded reference image
(Python truthiness: an empty byte string is treated as absent), and the
fixed inference parameters. -/
def build_qc_request (image_data : List ℕ) (instruction : String)
    (default_system_prompt : String) (reference_image_data : Option (List ℕ)) :
    QcRequest :=
  let system_list := [default_system_prompt]
  let message_list := [Message.mk "user"
    [.image "png" (base64_encode image_data), .text instruction]]
  let message_list :=
    match reference_image_data with
    | some rd =>
      if rd.isEmpty then message_list
      else
        message_list ++ [Message.mk "user"
          [.text "This is the reference image. Do not include bounding boxes for this image.",
           .image "png" (base64_encode rd)]]
    | none => message_list
  { schemaVersion := "messages-v1"
    messages := message_list
    system := system_list
    inferenceConfig :=
      { max_new_tokens := 2500
        top_p := 1 / 10
        top_k := 20
        temperature := 1 / 10 } }

/-! ## Inference client (`invoke_qc_model`) -/

/-- Embedding of `invoke_qc_model`: send the request to the remote endpoint
(an oracle from requests to either a raw response body or a raised
exception rendered as a string), decode the body with `json.loads`, and on
any exception return the sentinel `none`.  The whole body sits inside one
`try`, so a transport fault and an undecodable body both yield `none`. -/
def invoke_qc_model (remote : QcRequest → Except String String)
    (native_request : QcRequest) : Option Json :=
  match remote native_request with
  | .error _ => none
  | .ok body => json_loads body

/-! ## Response parsing (`parse_qc_response`) -/

/-- Embedding of the cleaning step of `parse_qc_response`: strip outer
whitespace, then delete every literal occurrence of the two markdown fence
substrings. -/
def clean_qc_text (raw_text : String) : String :=
  py_replace (py_replace (py_strip raw_text) "```json" "") "```" ""

/-- Embedding of `parse_qc_response`: falsy responses yield the sentinel;
otherwise extract `output.message.content[0].text`, clean it, and decode it
as JSON.  `KeyError` and `json.JSONDecodeError` are caught (sentinel);
every other exception of the extraction propagates. -/
def parse_qc_response (model_response : Option Json) :
    Except PyErr (Option Json) :=
  match model_response with
  | none => .ok none
  | some resp =>
    if py_falsy resp then .ok none
    else
      let extracted : Except PyErr Json := do
        let o ← get_item resp "output"
        let m ← get_item o "message"
        let c ← get_item m "content"
        let first ← get_index c 0
        get_item first "text"
      match extracted with
      | .error .keyError => .ok none
      | .error e => .error e
      | .ok v =>
        match v with
        | .str raw_text =>
          match json_loads (clean_qc_text raw_text) with
          | none => .ok none
          | some parsed => .ok (some parsed)
        | _ => .error .attributeError

/-! ## Bounding boxes and the renderer (`draw_bounding_boxes`, `display_qc_report`) -/

/-- A bounding box in the coordinates the model emits (0 to 1000 space). -/
structure Box where
  x_min : ℚ
  y_min : ℚ
  x_max : ℚ
  y_max : ℚ

/-- The coordinate rescaling applied in `draw_bounding_boxes`: each x
coordinate is multiplied by `scale_x`, each y coordinate by `scale_y`. -/
def scale_box (scale_x scale_y : ℚ) (b : Box) : Box :=
  ⟨b.x_min * scale_x, b.y_min * scale_y, b.x_max * scale_x, b.y_max * scale_y⟩

/-- Componentwise sum of two boxes. -/
def box_add (a b : Box) : Box :=
  ⟨a.x_min + b.x_min, a.y_min + b.y_min, a.x_max + b.x_max, a.y_max + b.y_max⟩

/-- Componentwise scalar multiple of a box. -/
def box_smul (c : ℚ) (b : Box) : Box :=
  ⟨c * b.x_min, c * b.y_min, c * b.x_max, c * b.y_max⟩

/-- A rectangle as handed to `plt.Rectangle` plus its label text. -/
structure DrawnRect where
  x : ℚ
  y : ℚ
  w : ℚ
  h : ℚ
  color : String
  label : String

/-- Model of Python `==` between a decoded JSON value and a string literal:
only equal strings compare equal, and no exception is possible. -/
def json_eq_str (j : Json) (s : String) : Bool :=
  match j with
  | .str t => t = s
  | _ => false

/-- Numeric view of a decoded JSON value as needed by the coordinate
arithmetic (`value * scale`); Python booleans are numeric, everything else
raises `TypeError`. -/
def py_num (j : Json) : Except PyErr ℚ :=
  match j with
  | .num q => .ok q
  | .bool b => .ok (if b then 1 else 0)
  | _ => .error .typeError

/-- The body of the loop of `draw_bounding_boxes` for one defect object:
read the bounding box, rescale it with `scale_box`, and build the rectangle
(origin, width and height) with its label and colour: green exactly when
the `qc` field equals `"OK"`, red otherwise. -/
def rect_of_obj (scale_x scale_y : ℚ) (obj : Json) : Except PyErr DrawnRect := do
  let box ← get_item obj "bounding_box"
  let xMinV ← get_item box "x_min"
  let yMinV ← get_item box "y_min"
  let xMaxV ← get_item box "x_max"
  let yMaxV ← get_item box "y_max"
  let xMin ← py_num xMinV
  let yMin ← py_num yMinV
  let xMax ← py_num xMaxV
  let yMax ← py_num yMaxV
  let scaled := scale_box scale_x scale_y ⟨xMin, yMin, xMax, yMax⟩
  let nameV ← get_item obj "name"
  let qcV ← get_item obj "qc"
  let label := py_to_string nameV ++ " (" ++ py_to_string qcV ++ ")"
  let color := if json_eq_str qcV "OK" then "green" else "red"
  pure ⟨scaled.x_min, scaled.y_min, scaled.x_max - scaled.x_min,
        scaled.y_max - scaled.y_min, color, label⟩

/-- The loop of `draw_bounding_boxes`: one rectangle per object, stopping
at the first raised exception. -/
def draw_rects (scale_x scale_y : ℚ) : List Json → Except PyErr (List DrawnRect)
  | [] => .ok []
  | obj :: rest => do
    let r ← rect_of_obj scale_x scale_y obj
    let rs ← draw_rects scale_x scale_y rest
    pure (r :: rs)

/-- Embedding of `draw_bounding_boxes`: decode the base64 PNG, derive the
scale factors `width / 1000` and `height / 1000` from the actual image
size, and draw one rectangle per defect object. -/
def draw_bounding_boxes (base64_img : List Char) (objects : List Json) :
    Except PyErr (Img × List DrawnRect) := do
  let bytes ← ofOption .valueError (base64_decode base64_img)
  let img ← ofOption .valueError (png_decode_dims bytes)
  let model_width : ℕ := 1000
  let model_height : ℕ := 1000
  let scale_x : ℚ := (img.width : ℚ) / (model_width : ℚ)
  let scale_y : ℚ := (img.height : ℚ) / (model_height : ℚ)
  let rects ← draw_rects scale_x scale_y objects
  pure (img, rects)

/-- One appended per-defect paragraph of the Branch A report text. -/
def defect_line (obj : Json) : Except PyErr String := do
  let box ← get_item obj "bounding_box"
  let nameV ← get_item obj "name"
  let colorV ← get_item obj "color"
  let qcV ← get_item obj "qc"
  let reasonV ← get_item obj "reason"
  let xMinV ← get_item box "x_min"
  let yMinV ← get_item box "y_min"
  let xMaxV ← get_item box "x_max"
  let yMaxV ← get_item box "y_max"
  pure ("\n- " ++ py_to_string nameV ++ " (" ++ py_to_string colorV ++ "): " ++
    py_to_string qcV ++ " — reason: " ++ py_to_string reasonV ++
    "\n  Bounding Box: x_min=" ++ py_to_string xMinV ++ ", y_min=" ++
    py_to_string yMinV ++ ", x_max=" ++ py_to_string xMaxV ++ ", y_max=" ++
    py_to_string yMaxV ++ "\n")

/-- The report-building loop of Branch A: concatenate the per-defect
paragraphs in list order. -/
def defect_lines : List Json → Except PyErr String
  | [] => .ok ""
  | obj :: rest => do
    let l ← defect_line obj
    let ls ← defect_lines rest
    pure (l ++ ls)

/-- What `display_qc_report` shows and prints. -/
structure QcReport where
  refShown : Bool
  plainImageShown : Bool
  drawn : List DrawnRect
  reportText : String

/-- Embedding of `display_qc_report`: show the reference image when one is
given (Python truthiness: an empty string counts as absent), then branch on
the truthiness of `parsed.get("objects")`.  Branch A draws the bounding
boxes and builds a report headed by the first defect verdict; Branch B
shows the plain subject image and reports `OK` with no defect lines.  A
`parsed` of `None` raises `AttributeError` at the `.get` call, exactly as
`None.get(...)` does in Python. -/
def display_qc_report (parsed : Option Json) (base64_image : List Char)
    (base64_reference_image : Option (List Char)) : Except PyErr QcReport := do
  let refShown ←
    match base64_reference_image with
    | some r =>
      if r.isEmpty then pure false
      else do
        let bytes ← ofOption PyErr.valueError (base64_decode r)
        let _ ← ofOption PyErr.valueError (png_decode_dims bytes)
        pure true
    | none => pure false
  let p ←
    match parsed with
    | none => Except.error PyErr.attributeError
    | some p => pure p
  let objsOpt ← get_method p "objects"
  let truthy :=
    match objsOpt with
    | none => false
    | some v => !py_falsy v
  if truthy then do
    let objsV ← get_item p "objects"
    let objList ←
      match objsV with
      | .arr l => pure l
      | _ => Except.error PyErr.typeError
    let drawn ← draw_bounding_boxes base64_image objList
    let first ← get_index objsV 0
    let qc0 ← get_item first "qc"
    let textV ← get_item p "text"
    let lines ← defect_lines objList
    pure { refShown := refShown, plainImageShown := false, drawn := drawn.2,
           reportText := "QC: " ++ py_to_string qc0 ++ "\n\nDescription:\n" ++
             py_to_string textV ++ "\n\nDefects:" ++ lines }
  else do
    let bytes ← ofOption PyErr.valueError (base64_decode base64_image)
    let _ ← ofOption PyErr.valueError (png_decode_dims bytes)
    let textV ← get_item p "text"
    pure { refShown := refShown, plainImageShown := true, drawn := [],
           reportText := "QC: OK\n\nDescription:\n" ++ py_to_string textV ++
             "\n\nNo defects were detected.\n" }

/-! ## Model availability check cell -/

/-- Embedding of the availability-check cell error handling: on success one
confirmation line; on an exception whose text contains
`AccessDeniedException` or `is not enabled`, the two-line not-activated
hint with the activation link; otherwise the generic error line. -/
def model_availability_messages (outcome : Except String Unit) : List String :=
  match outcome with
  | .ok _ => ["✅ Model \x27" ++ MODEL_ID ++ "\x27 is activated and available."]
  | .error e =>
    if str_contains e "AccessDeniedException" || str_contains e "is not enabled" then
      ["❌ Model \x27" ++ MODEL_ID ++ "\x27 is not activated.",
       "🔗 Activate it here: https://console.aws.amazon.com/bedrock/home?modelaccess#/modelaccess"]
    else
      ["❌ Error: " ++ e]

/-! ## Globals, loaders and the full pipeline -/

/-- The notebook module-level globals the pipeline reads and writes. -/
structure Globals where
  qc_image_path : String
  ref_image_path : String
  base64_image : List Char
  image_data : List ℕ
  img : Img
  base64_reference_image : List Char
  reference_image_data : List ℕ
  ref_img : Img

/-- Embedding of `load_qc_image`: read the file named by the global
`qc_image_path` and store the encoded results in the globals. -/
def load_qc_image (fs : String → Option Img) (g : Globals) :
    Except PyErr Globals := do
  let r ← get_png_base64_from_file fs g.qc_image_path 1024 1024
  pure { g with base64_image := r.1, image_data := r.2.1, img := r.2.2 }

/-- Embedding of `load_ref_image`: read the file named by the global
`ref_image_path` and store the encoded results in the globals. -/
def load_ref_image (fs : String → Option Img) (g : Globals) :
    Except PyErr Globals := do
  let r ← get_png_base64_from_file fs g.ref_image_path 1024 1024
  pure { g with base64_reference_image := r.1, reference_image_data := r.2.1,
                ref_img := r.2.2 }

/-- Embedding of `run_qc_full_pipeline`.  Its two parameters shadow the
globals of the same names and are never read in the body, exactly as in
the source: the loads consult the module-level paths in `g`. -/
def run_qc_full_pipeline (fs : String → Option Img)
    (remote : QcRequest → Except String String)
    (qc_image_path ref_image_path : String) (g : Globals) :
    Except PyErr (Globals × QcReport) := do
  let g ← load_qc_image fs g
  let g ← load_ref_image fs g
  let native_request := build_qc_request g.image_data instruction
    default_system_prompt (some g.reference_image_data)
  let model_response := invoke_qc_model remote native_request
  let parsed_output ← parse_qc_response model_response
  let rep ← display_qc_report parsed_output g.base64_image
    (some g.base64_reference_image)
  pure (g, rep)

/-! ## Well-formed defect reports (the data model of the spec) -/

/-- A well-formed Defect record of the spec data model. -/
structure Defect where
  name : String
  color : String
  qc : String
  reason : String
  x_min : ℚ
  y_min : ℚ
  x_max : ℚ
  y_max : ℚ

/-- The JSON object the model emits for one defect. -/
def defect_to_json (d : Defect) : Json :=
  .obj [("name", .str d.name), ("color", .str d.color), ("qc", .str d.qc),
        ("reason", .str d.reason),
        ("bounding_box", .obj [("x_min", .num d.x_min), ("y_min", .num d.y_min),
                               ("x_max", .num d.x_max), ("y_max", .num d.y_max)])]

/-- The JSON object of a well-formed parsed DefectReport: a description and
an ordered defect list. -/
def report_json (text : String) (objects : List Defect) : Json :=
  .obj [("text", .str text), ("objects", .arr (objects.map defect_to_json))]

/-! ## Concrete fixtures used by the theorems -/

/-- A demo subject image of 200 by 100 pixels. -/
def demo_img : Img := ⟨200, 100⟩

/-- The base64 PNG stream of the demo image. -/
def demo_b64 : List Char := base64_encode (png_bytes demo_img)

/-- The x scale factor `draw_bounding_boxes` derives for the demo image. -/
def demo_sx : ℚ := ((200 : ℕ) : ℚ) / ((1000 : ℕ) : ℚ)

/-- The y scale factor `draw_bounding_boxes` derives for the demo image. -/
def demo_sy : ℚ := ((100 : ℕ) : ℚ) / ((1000 : ℕ) : ℚ)

/-- The rectangle `draw_bounding_boxes` produces for a well-formed defect. -/
def rect_of_defect (sx sy : ℚ) (d : Defect) : DrawnRect :=
  ⟨d.x_min * sx, d.y_min * sy, d.x_max * sx - d.x_min * sx,
   d.y_max * sy - d.y_min * sy,
   if json_eq_str (.str d.qc) "OK" then "green" else "red",
   d.name ++ " (" ++ d.qc ++ ")"⟩

/-- The report paragraph `display_qc_report` appends for a well-formed
defect. -/
def line_of_defect (d : Defect) : String :=
  "\n- " ++ d.name ++ " (" ++ d.color ++ "): " ++ d.qc ++ " — reason: " ++
  d.reason ++ "\n  Bounding Box: x_min=" ++ toString d.x_min ++ ", y_min=" ++
  toString d.y_min ++ ", x_max=" ++ toString d.x_max ++ ", y_max=" ++
  toString d.y_max ++ "\n"

/-- The concatenated defect paragraphs of a Branch A report. -/
def lines_of_defects : List Defect → String
  | [] => ""
  | d :: rest => line_of_defect d ++ lines_of_defects rest

/-- A defect the model judged acceptable. -/
def ok_defect : Defect := ⟨"defect_1", "green", "OK", "fine", 10, 20, 30, 40⟩

/-- A defect the model judged not acceptable. -/
def nok_defect : Defect := ⟨"defect_2", "blue", "NOK", "scratch", 50, 60, 70, 80⟩

/-- A defect carrying the lowercase verdict `"ok"`, which is not the literal
`"OK"`. -/
def lower_ok_defect : Defect := ⟨"defect_3", "red", "ok", "odd", 1, 2, 3, 4⟩

/-- A file system oracle holding one small decodable image at every path. -/
def mock_fs : String → Option Img := fun _ => some ⟨8, 6⟩

/-- A malformed defect payload: the closing brace is missing. -/
def malformed_payload : String := "\x7b\"text\": \"oops\""

/-- The raw body of a model response whose embedded defect payload is
`malformed_payload` (the embedded quotes are JSON-escaped). -/
def malformed_body : String :=
  "\x7b\"output\": \x7b\"message\": \x7b\"content\": [\x7b\"text\": \"\x7b\\\"text\\\": \\\"oops\\\"\"\x7d]\x7d\x7d\x7d"

/-- A remote endpoint that answers every request with `malformed_body`. -/
def malformed_remote : QcRequest → Except String String := fun _ => .ok malformed_body

/-- The decoded top-level response carrying `malformed_payload` in
`output.message.content[0].text`. -/
def malformed_response : Json :=
  .obj [("output", .obj [("message", .obj [("content",
    .arr [.obj [("text", .str malformed_payload)]])])])]

/-- Initial globals before the loads of a pipeline run. -/
def initial_globals : Globals := ⟨"qc.jpg", "ref.jpg", [], [], ⟨0, 0⟩, [], [], ⟨0, 0⟩⟩

/-! ## Reduction lemmas for the renderer -/

theorem rect_of_obj_defect (sx sy : ℚ) (d : Defect) :
    rect_of_obj sx sy (defect_to_json d) = .ok (rect_of_defect sx sy d) := rfl

theorem defect_line_defect (d : Defect) :
    defect_line (defect_to_json d) = .ok (line_of_defect d) := rfl

theorem except_bind_ok (a : α) (f : α → Except PyErr β) :
    (Except.ok a : Except PyErr α) >>= f = f a := rfl

theorem except_pure_ok (a : α) : (pure a : Except PyErr α) = .ok a := rfl

theorem draw_rects_defects (sx sy : ℚ) (ds : List Defect) :
    draw_rects sx sy (ds.map defect_to_json) =
      .ok (ds.map (rect_of_defect sx sy)) := by
  induction ds with
  | nil => rfl
  | cons d rest ih =>
    simp only [List.map_cons, draw_rects, rect_of_obj_defect, except_bind_ok, ih,
      except_pure_ok]

theorem defect_lines_defects (ds : List Defect) :
    defect_lines (ds.map defect_to_json) = .ok (lines_of_defects ds) := by
  induction ds with
  | nil => rfl
  | cons d rest ih =>
    simp only [List.map_cons, defect_lines, defect_line_defect, except_bind_ok, ih,
      except_pure_ok, lines_of_defects]

theorem draw_bounding_boxes_demo_eq (objs : List Json) :
    draw_bounding_boxes demo_b64 objs =
      (draw_rects demo_sx demo_sy objs) >>= (fun rects => pure (demo_img, rects)) := rfl

theorem draw_demo_defects (ds : List Defect) :
    draw_bounding_boxes demo_b64 (ds.map defect_to_json) =
      .ok (demo_img, ds.map (rect_of_defect demo_sx demo_sy)) := by
  rw [draw_bounding_boxes_demo_eq, draw_rects_defects]; rfl

theorem py_falsy_cons (j : Json) (rest : List Json) :
    py_falsy (.arr (j :: rest)) = false := rfl

theorem get_index_cons (j : Json) (rest : List Json) :
    get_index (.arr (j :: rest)) 0 = .ok j := rfl

theorem draw_demo_defects_cons (d : Defect) (ds : List Defect) :
    draw_bounding_boxes demo_b64 (defect_to_json d :: List.map defect_to_json ds) =
      .ok (demo_img, rect_of_defect demo_sx demo_sy d ::
        List.map (rect_of_defect demo_sx demo_sy) ds) := by
  have h := draw_demo_defects (d :: ds)
  simpa using h

theorem defect_lines_cons (d : Defect) (ds : List Defect) :
    defect_lines (defect_to_json d :: List.map defect_to_json ds) =
      .ok (line_of_defect d ++ lines_of_defects ds) := by
  have h := defect_lines_defects (d :: ds)
  simpa [lines_of_defects] using h

theorem get_method_report (t : String) (objs : List Defect) :
    get_method (report_json t objs) "objects" =
      .ok (some (.arr (objs.map defect_to_json))) := rfl

theorem get_item_report_objects (t : String) (objs : List Defect) :
    get_item (report_json t objs) "objects" =
      .ok (.arr (objs.map defect_to_json)) := rfl

theorem get_item_report_text (t : String) (objs : List Defect) :
    get_item (report_json t objs) "text" = .ok (.str t) := rfl

theorem get_item_defect_qc (d : Defect) :
    get_item (defect_to_json d) "qc" = .ok (.str d.qc) := rfl

theorem display_branch_a (t : String) (d : Defect) (ds : List Defect) :
    display_qc_report (some (report_json t (d :: ds))) demo_b64 none = .ok
      { refShown := false, plainImageShown := false,
        drawn := (d :: ds).map (rect_of_defect demo_sx demo_sy),
        reportText := "QC: " ++ d.qc ++ "\n\nDescription:\n" ++ t ++
          "\n\nDefects:" ++ lines_of_defects (d :: ds) } := by
  simp [display_qc_report, get_method_report, get_item_report_objects,
    get_item_report_text, get_item_defect_qc, py_falsy_cons, get_index_cons,
    draw_demo_defects_cons, defect_lines_cons, py_to_string,
    lines_of_defects, except_bind_ok, except_pure_ok]

theorem display_branch_b (t : String) :
    display_qc_report (some (report_json t [])) demo_b64 none = .ok
      { refShown := false, plainImageShown := true, drawn := [],
        reportText := "QC: OK\n\nDescription:\n" ++ t ++
          "\n\nNo defects were detected.\n" } := rfl

/-! ## Claim theorems -/

/-- C1: for every parsed DefectReport whose objects list is non-empty, the
overall QC verdict printed at the top of the rendered report equals the
`qc` field of the first defect in the list, with no aggregation over the
other defects; and on a response with two Defect entries, one `qc = OK` and
one `qc = NOK`, the renderer draws exactly two rectangles, one green and
one red. -/
theorem report_verdict_first_defect_two_colors (t : String) (d : Defect)
    (ds : List Defect) :
    (∃ rest : String, ∃ rep : QcReport,
      display_qc_report (some (report_json t (d :: ds))) demo_b64 none = .ok rep ∧
      rep.reportText = "QC: " ++ d.qc ++ rest) ∧
    (∃ rep2 : QcReport,
      display_qc_report (some (report_json "desc" [ok_defect, nok_defect]))
        demo_b64 none = .ok rep2 ∧
      rep2.drawn.length = 2 ∧
      List.map DrawnRect.color rep2.drawn = ["green", "red"]) := by
  constructor
  · refine ⟨"\n\nDescription:\n" ++ t ++ "\n\nDefects:" ++ lines_of_defects (d :: ds),
      _, display_branch_a t d ds, ?_⟩
    simp [String.append_assoc]
  · exact ⟨_, display_branch_a "desc" ok_defect [nok_defect], rfl, rfl⟩

/-- C6: for every well-formed parsed response whose objects list is empty,
the renderer takes Branch B: it displays the plain subject image, draws no
bounding boxes, and its report text states verdict OK, contains exactly the
description, states that no defects were detected, and has no per-defect
lines. -/
theorem branch_b_empty_objects_report (t : String) :
    ∃ rep : QcReport,
      display_qc_report (some (report_json t [])) demo_b64 none = .ok rep ∧
      rep.plainImageShown = true ∧ rep.drawn = [] ∧
      rep.reportText = "QC: OK\n\nDescription:\n" ++ t ++
        "\n\nNo defects were detected.\n" :=
  ⟨_, display_branch_b t, rfl, rfl, rfl⟩

/-- C10: for every defect object, the rectangle and label colour is green
exactly when the `qc` field equals the string `"OK"`; any other string,
including `"ok"`, is drawn red. -/
theorem rect_colour_green_iff_qc_ok (d : Defect) :
    ∃ r : DrawnRect,
      draw_bounding_boxes demo_b64 [defect_to_json d] = .ok (demo_img, [r]) ∧
      (r.color = "green" ↔ d.qc = "OK") ∧
      (d.qc ≠ "OK" → r.color = "red") := by
  refine ⟨rect_of_defect demo_sx demo_sy d, ?_, ?_, ?_⟩
  · simpa using draw_demo_defects [d]
  · by_cases hq : d.qc = "OK" <;> simp [rect_of_defect, json_eq_str, hq]
  · intro h
    simp [rect_of_defect, json_eq_str, h]

/-- Witness for C10 at the concrete lowercase verdict `"ok"`: the rectangle
is red. -/
theorem rect_colour_green_iff_qc_ok_witness :
    ∃ r : DrawnRect,
      draw_bounding_boxes demo_b64 [defect_to_json lower_ok_defect] =
        .ok (demo_img, [r]) ∧ r.color = "red" := by
  obtain ⟨r, h1, _, h3⟩ := rect_colour_green_iff_qc_ok lower_ok_defect
  exact ⟨r, h1, h3 (by decide)⟩

/-- C3: every remote-call exception whose string rendering contains
`AccessDeniedException` makes the availability check print the specific
two-line not-activated hint with the activation link, not the generic
error line. -/
theorem access_denied_prints_not_activated_hint (e : String)
    (h : str_contains e "AccessDeniedException" = true) :
    model_availability_messages (.error e) =
      ["❌ Model \x27amazon.nova-pro-v1:0\x27 is not activated.",
       "🔗 Activate it here: https://console.aws.amazon.com/bedrock/home?modelaccess#/modelaccess"] ∧
    model_availability_messages (.error e) ≠ ["❌ Error: " ++ e] := by
  have hc : (str_contains e "AccessDeniedException" ||
      str_contains e "is not enabled") = true := by rw [h]; rfl
  constructor
  · simp [model_availability_messages, hc, MODEL_ID]
  · simp [model_availability_messages, hc, MODEL_ID]

/-- Witness for C3 at a concrete exception string that contains
`AccessDeniedException`. -/
theorem access_denied_hint_witness :
    model_availability_messages (.error
      "An error occurred (AccessDeniedException) when calling the InvokeModel operation") =
      ["❌ Model \x27amazon.nova-pro-v1:0\x27 is not activated.",
       "🔗 Activate it here: https://console.aws.amazon.com/bedrock/home?modelaccess#/modelaccess"] ∧
    model_availability_messages (.error
      "An error occurred (AccessDeniedException) when calling the InvokeModel operation") ≠
      ["❌ Error: " ++
        "An error occurred (AccessDeniedException) when calling the InvokeModel operation"] :=
  access_denied_prints_not_activated_hint
    "An error occurred (AccessDeniedException) when calling the InvokeModel operation" rfl

/-- C7: the request builder emits exactly the system prompt as the system
list, a first user message with the base64-encoded subject image and the
instruction, a second user message with the disclaimer and the
base64-encoded reference image exactly when a (non-empty) reference image
is supplied, and the fixed inference parameters 2500, 0.1, 0.1, 20. -/
theorem build_qc_request_shape (image_data : List ℕ) (instr sys : String)
    (ref : List ℕ) (h : ref ≠ []) :
    (build_qc_request image_data instr sys none).system = [sys] ∧
    (build_qc_request image_data instr sys (some ref)).system = [sys] ∧
    (build_qc_request image_data instr sys none).messages =
      [⟨"user", [.image "png" (base64_encode image_data), .text instr]⟩] ∧
    (build_qc_request image_data instr sys (some ref)).messages =
      [⟨"user", [.image "png" (base64_encode image_data), .text instr]⟩,
       ⟨"user", [.text "This is the reference image. Do not include bounding boxes for this image.",
                 .image "png" (base64_encode ref)]⟩] ∧
    (build_qc_request image_data instr sys (some ref)).inferenceConfig =
      ⟨2500, 1 / 10, 20, 1 / 10⟩ ∧
    (build_qc_request image_data instr sys none).inferenceConfig =
      ⟨2500, 1 / 10, 20, 1 / 10⟩ := by
  obtain ⟨c, cs, rfl⟩ := List.exists_cons_of_ne_nil h
  exact ⟨rfl, rfl, rfl, rfl, rfl, rfl⟩

/-- Witness for C7 at concrete byte lists and prompt strings. -/
theorem build_qc_request_shape_witness :
    (build_qc_request [1, 2] "inspect" "sys" none).system = ["sys"] ∧
    (build_qc_request [1, 2] "inspect" "sys" (some [3])).system = ["sys"] ∧
    (build_qc_request [1, 2] "inspect" "sys" none).messages =
      [⟨"user", [.image "png" (base64_encode [1, 2]), .text "inspect"]⟩] ∧
    (build_qc_request [1, 2] "inspect" "sys" (some [3])).messages =
      [⟨"user", [.image "png" (base64_encode [1, 2]), .text "inspect"]⟩,
       ⟨"user", [.text "This is the reference image. Do not include bounding boxes for this image.",
                 .image "png" (base64_encode [3])]⟩] ∧
    (build_qc_request [1, 2] "inspect" "sys" (some [3])).inferenceConfig =
      ⟨2500, 1 / 10, 20, 1 / 10⟩ ∧
    (build_qc_request [1, 2] "inspect" "sys" none).inferenceConfig =
      ⟨2500, 1 / 10, 20, 1 / 10⟩ :=
  build_qc_request_shape [1, 2] "inspect" "sys" [3] (by simp)

/-- C8: the inference client returns the decoded top-level response object
when the remote call succeeds and its body decodes, returns the sentinel
`none` on any raised exception, and its outcome is a function of the single
remote answer for the given request (no retry can change it). -/
theorem invoke_qc_model_contract (remote : QcRequest → Except String String)
    (native_request : QcRequest) :
    (∀ e, remote native_request = .error e →
      invoke_qc_model remote native_request = none) ∧
    (∀ body, remote native_request = .ok body →
      invoke_qc_model remote native_request = json_loads body) ∧
    (∀ remote2 : QcRequest → Except String String,
      remote2 native_request = remote native_request →
      invoke_qc_model remote2 native_request =
        invoke_qc_model remote native_request) := by
  refine ⟨?_, ?_, ?_⟩
  · intro e he
    simp [invoke_qc_model, he]
  · intro body hb
    simp [invoke_qc_model, hb]
  · intro remote2 h2
    simp [invoke_qc_model, h2]

/-- Witness for C8: a remote call that raises yields the sentinel. -/
theorem invoke_qc_model_contract_witness :
    invoke_qc_model (fun _ => .error "boom")
      (build_qc_request [] "i" "s" none) = none :=
  (invoke_qc_model_contract (fun _ => .error "boom")
    (build_qc_request [] "i" "s" none)).1 "boom" rfl

/-- C9: the two path parameters of `run_qc_full_pipeline` have no influence
on its behaviour; with identical globals, file system and remote endpoint,
any two argument pairs give identical runs. -/
theorem run_qc_full_pipeline_ignores_args (fs : String → Option Img)
    (remote : QcRequest → Except String String)
    (qc1 ref1 qc2 ref2 : String) (g : Globals) :
    run_qc_full_pipeline fs remote qc1 ref1 g =
      run_qc_full_pipeline fs remote qc2 ref2 g := rfl

/-- C2 evidence: at a response whose embedded payload is missing its
closing brace, the parse step does catch the decode failure and return the
sentinel `none`, but the full pipeline then hands that sentinel to
`display_qc_report`, whose `.get` call raises an uncaught
`AttributeError` that escapes the whole invocation. -/
theorem parse_sentinel_then_pipeline_attribute_error :
    json_loads malformed_body = some malformed_response ∧
    json_loads (clean_qc_text malformed_payload) = none ∧
    parse_qc_response (some malformed_response) = .ok none ∧
    run_qc_full_pipeline mock_fs malformed_remote "a" "b" initial_globals =
      .error .attributeError := ⟨rfl, rfl, rfl, rfl⟩

/-- C5: the rescaling of `draw_bounding_boxes` multiplies each x coordinate
by `width / 1000` and each y coordinate by `height / 1000` before drawing,
is linear over boxes, and is inverted exactly by the scale
`(1000 / width, 1000 / height)`. -/
theorem scale_box_linear_and_invertible (w h : ℚ) (hw : w ≠ 0) (hh : h ≠ 0)
    (b b1 b2 : Box) (c : ℚ) :
    scale_box (1000 / w) (1000 / h) (scale_box (w / 1000) (h / 1000) b) = b ∧
    scale_box (w / 1000) (h / 1000) (box_add b1 b2) =
      box_add (scale_box (w / 1000) (h / 1000) b1)
        (scale_box (w / 1000) (h / 1000) b2) ∧
    scale_box (w / 1000) (h / 1000) (box_smul c b) =
      box_smul c (scale_box (w / 1000) (h / 1000) b) ∧
    (∀ d : Defect, ∃ r : DrawnRect,
      rect_of_obj (w / 1000) (h / 1000) (defect_to_json d) = .ok r ∧
      r.x = (scale_box (w / 1000) (h / 1000)
        ⟨d.x_min, d.y_min, d.x_max, d.y_max⟩).x_min ∧
      r.y = (scale_box (w / 1000) (h / 1000)
        ⟨d.x_min, d.y_min, d.x_max, d.y_max⟩).y_min) := by
  refine ⟨?_, ?_, ?_, ?_⟩
  · cases b with
    | mk a bb cc dd =>
      simp only [scale_box, Box.mk.injEq]
      refine ⟨?_, ?_, ?_, ?_⟩ <;> field_simp
  · cases b1 with
    | mk a bb cc dd =>
      cases b2 with
      | mk e f gg i =>
        simp only [scale_box, box_add, Box.mk.injEq]
        refine ⟨?_, ?_, ?_, ?_⟩ <;> ring
  · cases b with
    | mk a bb cc dd =>
      simp only [scale_box, box_smul, Box.mk.injEq]
      refine ⟨?_, ?_, ?_, ?_⟩ <;> ring
  · intro d
    exact ⟨rect_of_defect (w / 1000) (h / 1000) d, rect_of_obj_defect _ _ d,
      rfl, rfl⟩

/-- Witness for C5 at the concrete image size 500 by 400 and a concrete
box: rescaling forward and back recovers the box. -/
theorem scale_box_linear_and_invertible_witness :
    scale_box (1000 / 500) (1000 / 400)
      (scale_box (500 / 1000) (400 / 1000) ⟨1, 2, 3, 4⟩) = (⟨1, 2, 3, 4⟩ : Box) :=
  (scale_box_linear_and_invertible 500 400 (by norm_num) (by norm_num)
    ⟨1, 2, 3, 4⟩ ⟨0, 0, 0, 0⟩ ⟨0, 0, 0, 0⟩ 0).1


theorem round_aspect_ge_one (q : ℚ) (key : ℤ → ℚ) : 1 ≤ round_aspect q key :=
  le_max_right _ _

theorem round_aspect_close (q : ℚ) (key : ℤ → ℚ) (hq : 0 < q) :
    |((round_aspect q key : ℤ) : ℚ) - q| ≤ 1 := by
  have hfloor : ((⌊q⌋ : ℤ) : ℚ) ≤ q := Int.floor_le q
  have hfloor2 : q - 1 < ((⌊q⌋ : ℤ) : ℚ) := Int.sub_one_lt_floor q
  have hceil : q ≤ ((⌈q⌉ : ℤ) : ℚ) := Int.le_ceil q
  have hceil2 : ((⌈q⌉ : ℤ) : ℚ) < q + 1 := Int.ceil_lt_add_one q
  rw [round_aspect]
  rcases le_or_lt (key ⌊q⌋) (key ⌈q⌉) with hk | hk
  · rw [if_pos hk, abs_le]
    push_cast [Int.cast_max]
    constructor
    · have h1 := le_max_left ((⌊q⌋ : ℤ) : ℚ) (1 : ℚ)
      linarith
    · have h2 : max ((⌊q⌋ : ℤ) : ℚ) (1 : ℚ) ≤ q + 1 :=
        max_le (by linarith) (by linarith)
      linarith
  · rw [if_neg (not_le.mpr hk), abs_le]
    push_cast [Int.cast_max]
    constructor
    · have h1 := le_max_left ((⌈q⌉ : ℤ) : ℚ) (1 : ℚ)
      linarith
    · have h2 : max ((⌈q⌉ : ℤ) : ℚ) (1 : ℚ) ≤ q + 1 :=
        max_le (by linarith) (by linarith)
      linarith

theorem round_aspect_le_bound (q : ℚ) (key : ℤ → ℚ) (B : ℤ)
    (hB : 1 ≤ B) (hq : q ≤ (B : ℚ)) : round_aspect q key ≤ B := by
  rw [round_aspect]
  rcases le_or_lt (key ⌊q⌋) (key ⌈q⌉) with hk | hk
  · rw [if_pos hk]
    have h1 : ⌊q⌋ ≤ ⌊(B : ℚ)⌋ := Int.floor_le_floor hq
    rw [Int.floor_intCast] at h1
    exact max_le h1 hB
  · rw [if_neg (not_le.mpr hk)]
    exact max_le (Int.ceil_le.mpr hq) hB

theorem thumbnail_dims_spec (w h mw mh : ℕ)
    (hw : 1 ≤ w) (hh : 1 ≤ h) (hmw : 1 ≤ mw) (hmh : 1 ≤ mh) :
    (thumbnail_dims w h mw mh).1 ≤ mw ∧
    (thumbnail_dims w h mw mh).2 ≤ mh ∧
    (w ≤ mw → h ≤ mh → thumbnail_dims w h mw mh = (w, h)) ∧
    (thumbnail_dims w h mw mh = (w, h) ∨
      |((thumbnail_dims w h mw mh).1 : ℚ) -
        ((thumbnail_dims w h mw mh).2 : ℚ) * w / h| ≤ 1 ∨
      |((thumbnail_dims w h mw mh).2 : ℚ) -
        ((thumbnail_dims w h mw mh).1 : ℚ) * h / w| ≤ 1) := by
  have hw0 : (0 : ℚ) < (w : ℚ) := by exact_mod_cast hw
  have hh0 : (0 : ℚ) < (h : ℚ) := by exact_mod_cast hh
  have hmw0 : (0 : ℚ) < (mw : ℚ) := by exact_mod_cast hmw
  have hmh0 : (0 : ℚ) < (mh : ℚ) := by exact_mod_cast hmh
  by_cases hfit : w ≤ mw ∧ h ≤ mh
  · simp only [thumbnail_dims, if_pos hfit]
    exact ⟨hfit.1, hfit.2, fun _ _ => trivial, Or.inl trivial⟩
  · simp only [thumbnail_dims, if_neg hfit]
    by_cases hbr : (w : ℚ) / (h : ℚ) ≤ (mw : ℚ) / (mh : ℚ)
    · rw [if_pos hbr]
      have hq0 : 0 < (mh : ℚ) * ((w : ℚ) / (h : ℚ)) :=
        mul_pos hmh0 (div_pos hw0 hh0)
      have hqle : (mh : ℚ) * ((w : ℚ) / (h : ℚ)) ≤ (mw : ℚ) := by
        have h1 : (mh : ℚ) * ((w : ℚ) / h) ≤ (mh : ℚ) * ((mw : ℚ) / mh) :=
          mul_le_mul_of_nonneg_left hbr (le_of_lt hmh0)
        have h2 : (mh : ℚ) * ((mw : ℚ) / mh) = mw := by field_simp
        linarith
      set x := round_aspect ((mh : ℚ) * ((w : ℚ) / (h : ℚ)))
        (fun n => |(w : ℚ) / (h : ℚ) - (n : ℚ) / (mh : ℚ)|) with hxdef
      have hx1 : 1 ≤ x := round_aspect_ge_one _ _
      have hxle : x ≤ (mw : ℤ) :=
        round_aspect_le_bound _ _ _ (by exact_mod_cast hmw) hqle
      have hclose := round_aspect_close ((mh : ℚ) * ((w : ℚ) / (h : ℚ)))
        (fun n => |(w : ℚ) / (h : ℚ) - (n : ℚ) / (mh : ℚ)|) hq0
      have htn : ((x.toNat : ℕ) : ℤ) = x := Int.toNat_of_nonneg (by linarith)
      refine ⟨?_, le_refl mh, ?_, Or.inr (Or.inl ?_)⟩
      · show x.toNat ≤ mw
        have hz : ((x.toNat : ℕ) : ℤ) ≤ ((mw : ℕ) : ℤ) := by
          rw [htn]; exact_mod_cast hxle
        exact_mod_cast hz
      · intro h1 h2
        exact absurd ⟨h1, h2⟩ hfit
      · show |((x.toNat : ℕ) : ℚ) - (mh : ℚ) * (w : ℚ) / (h : ℚ)| ≤ 1
        have hcast : ((x.toNat : ℕ) : ℚ) = ((x : ℤ) : ℚ) := by
          exact_mod_cast congrArg (fun z : ℤ => (z : ℚ)) htn
        rw [hcast, mul_div_assoc, hxdef]
        exact hclose
    · rw [if_neg hbr]
      have haspect0 : 0 < (w : ℚ) / (h : ℚ) := div_pos hw0 hh0
      have hlt : (mw : ℚ) / (mh : ℚ) < (w : ℚ) / (h : ℚ) := not_le.mp hbr
      have hq0 : 0 < (mw : ℚ) / ((w : ℚ) / (h : ℚ)) := div_pos hmw0 haspect0
      have hqle : (mw : ℚ) / ((w : ℚ) / (h : ℚ)) ≤ (mh : ℚ) := by
        rw [div_le_iff₀ haspect0]
        have := (div_lt_iff₀ hmh0).mp hlt
        nlinarith [hmh0, haspect0]
      set y := round_aspect ((mw : ℚ) / ((w : ℚ) / (h : ℚ)))
        (fun n => if n = 0 then (0 : ℚ) else |(w : ℚ) / (h : ℚ) - (mw : ℚ) / (n : ℚ)|) with hydef
      have hy1 : 1 ≤ y := round_aspect_ge_one _ _
      have hyle : y ≤ (mh : ℤ) :=
        round_aspect_le_bound _ _ _ (by exact_mod_cast hmh) hqle
      have hclose := round_aspect_close ((mw : ℚ) / ((w : ℚ) / (h : ℚ)))
        (fun n => if n = 0 then (0 : ℚ) else |(w : ℚ) / (h : ℚ) - (mw : ℚ) / (n : ℚ)|) hq0
      have htn : ((y.toNat : ℕ) : ℤ) = y := Int.toNat_of_nonneg (by linarith)
      refine ⟨le_refl mw, ?_, ?_, Or.inr (Or.inr ?_)⟩
      · show y.toNat ≤ mh
        have hz : ((y.toNat : ℕ) : ℤ) ≤ ((mh : ℕ) : ℤ) := by
          rw [htn]; exact_mod_cast hyle
        exact_mod_cast hz
      · intro h1 h2
        exact absurd ⟨h1, h2⟩ hfit
      · show |((y.toNat : ℕ) : ℚ) - (mw : ℚ) * (h : ℚ) / (w : ℚ)| ≤ 1
        have hcast : ((y.toNat : ℕ) : ℚ) = ((y : ℤ) : ℚ) := by
          exact_mod_cast congrArg (fun z : ℤ => (z : ℚ)) htn
        have hdd : (mw : ℚ) / ((w : ℚ) / (h : ℚ)) = (mw : ℚ) * (h : ℚ) / (w : ℚ) :=
          div_div_eq_mul_div _ _ _
        rw [hcast, ← hdd, hydef]
        exact hclose

/-- C4: for every decodable image and maximum size, the loader returns the
base64 string and raw bytes of a PNG re-encoding whose decoded image fits
within the maximum, preserves the original aspect within rounding (one
dimension pinned to its bound, the other within one pixel of the exact
aspect-preserving value), and is never upscaled: an image already within
the maximum keeps its dimensions. -/
theorem loader_bounded_and_aspect (fs : String → Option Img) (filepath : String)
    (i : Img) (mw mh : ℕ) (hfs : fs filepath = some i)
    (hw : 1 ≤ i.width) (hh : 1 ≤ i.height) (hmw : 1 ≤ mw) (hmh : 1 ≤ mh) :
    ∃ t : Img,
      get_png_base64_from_file fs filepath mw mh =
        .ok (base64_encode (png_bytes t), png_bytes t, t) ∧
      png_decode_dims (png_bytes t) = some t ∧
      t.width ≤ mw ∧ t.height ≤ mh ∧
      (i.width ≤ mw → i.height ≤ mh → t = i) ∧
      (t = i ∨
        |(t.width : ℚ) - (t.height : ℚ) * i.width / i.height| ≤ 1 ∨
        |(t.height : ℚ) - (t.width : ℚ) * i.height / i.width| ≤ 1) := by
  obtain ⟨hle1, hle2, hfit, hasp⟩ :=
    thumbnail_dims_spec i.width i.height mw mh hw hh hmw hmh
  refine ⟨thumbnail_img i mw mh, ?_, rfl, hle1, hle2, ?_, ?_⟩
  · simp [get_png_base64_from_file, hfs, ofOption, except_bind_ok, except_pure_ok]
  · intro h1 h2
    have he := hfit h1 h2
    simp [thumbnail_img, he]
  · rcases hasp with he | hq
    · left
      simp [thumbnail_img, he]
    · right
      exact hq

/-- Witness for C4 at a concrete 2000 by 1000 image and the notebook bound
of 1024 by 1024. -/
theorem loader_bounded_and_aspect_witness :
    ∃ t : Img,
      get_png_base64_from_file (fun _ => some ⟨2000, 1000⟩) "img.jpg" 1024 1024 =
        .ok (base64_encode (png_bytes t), png_bytes t, t) ∧
      png_decode_dims (png_bytes t) = some t ∧
      t.width ≤ 1024 ∧ t.height ≤ 1024 ∧
      ((⟨2000, 1000⟩ : Img).width ≤ 1024 → (⟨2000, 1000⟩ : Img).height ≤ 1024 →
        t = ⟨2000, 1000⟩) ∧
      (t = ⟨2000, 1000⟩ ∨
        |(t.width : ℚ) - (t.height : ℚ) * (⟨2000, 1000⟩ : Img).width /
          (⟨2000, 1000⟩ : Img).height| ≤ 1 ∨
        |(t.height : ℚ) - (t.width : ℚ) * (⟨2000, 1000⟩ : Img).height /
          (⟨2000, 1000⟩ : Img).width| ≤ 1) :=
  loader_bounded_and_aspect (fun _ => some ⟨2000, 1000⟩) "img.jpg" ⟨2000, 1000⟩
    1024 1024 rfl (by norm_num) (by norm_num) (by norm_num) (by norm_num)

end NovaInspection

